import Mathlib

/-!
Verification of the GC-root registration module (`src/project/roots.rs`).

The module's filesystem side effects are modelled by a flat map from
absolute paths (lists of components) to filesystem entries, together with
a write-permission predicate standing for the ambient permission state of
the containing directories.  Process environment reads (`NIX_STATE_DIR`,
`USER`) are modelled by an explicit environment record.  `unwrap`/`expect`
panics are modelled by a distinguished failure constructor.

Symlink resolution of a path's final component is modelled (with a fuel
bound standing for the OS's symlink-loop limit); resolution of
intermediate directory components is not modelled, so a directory test is
the entry at the path being a directory.
-/

namespace LorriRoots

/-- An absolute filesystem path, as its list of components (AbsPathBuf). -/
abbrev Path := List String

/-- Render a path, as the Rust side's display does. -/
def pathDisplay (p : Path) : String := "/" ++ String.intercalate "/" p

/-- A filesystem entry: a regular file, a directory, or a symlink storing
its target path. -/
inductive Entry where
  | file : Entry
  | dir : Entry
  | symlink (target : Path) : Entry
deriving DecidableEq

/-- The filesystem state: the entry present at each path, plus which paths
cannot be written (created/removed) for ambient permission reasons. -/
@[ext]
structure FsState where
  fs : Path → Option Entry
  writeDenied : Path → Bool

/-- Pointwise update of the path-to-entry map. -/
def updateFs (m : Path → Option Entry) (p : Path) (v : Option Entry) :
    Path → Option Entry :=
  fun q => if q = p then v else m q

/-- The error kinds of std::io::Error that this module distinguishes. -/
inductive IoErrorKind where
  | notFound
  | alreadyExists
  | isADirectory
  | permissionDenied
  | other
deriving DecidableEq

/-- Model of std::fs::remove_file: fails with NotFound on an absent path,
fails on a directory, fails when the path is write-denied, and otherwise
deletes the entry. -/
def removeFile (st : FsState) (p : Path) : Except IoErrorKind FsState :=
  match st.fs p with
  | none => .error .notFound
  | some .dir => .error .isADirectory
  | some _ =>
    if st.writeDenied p then .error .permissionDenied
    else .ok { st with fs := updateFs st.fs p none }

/-- Whether the entry at a path is a directory (model of Path::is_dir for
the directory paths this module tests). -/
def dirEntryAt (st : FsState) (p : Path) : Bool :=
  match st.fs p with
  | some .dir => true
  | _ => false

/-- Whether a path can serve as the parent directory of a new entry: the
filesystem root, or a path holding a directory. -/
def dirExists (st : FsState) (p : Path) : Bool :=
  p.isEmpty || dirEntryAt st p

/-- Model of std::os::unix::fs::symlink target link: fails if the link
path is occupied, write-denied, or its parent directory is missing, and
otherwise creates a symlink entry storing the target. -/
def symlinkFile (st : FsState) (target : Path) (link : Path) :
    Except IoErrorKind FsState :=
  match st.fs link with
  | some _ => .error .alreadyExists
  | none =>
    if st.writeDenied link then .error .permissionDenied
    else if dirExists st link.dropLast then
      .ok { st with fs := updateFs st.fs link (some (.symlink target)) }
    else .error .notFound

/-- Model of std::fs::create_dir_all, walking the components from the
root: an existing directory component is kept, a missing component is
created as a directory, and an existing non-directory component is an
error.  Never overwrites an existing entry. -/
def createDirAllGo (st : FsState) (done : Path) :
    List String → Except IoErrorKind FsState
  | [] => .ok st
  | c :: rest =>
    match st.fs (done ++ [c]) with
    | none =>
      createDirAllGo { st with fs := updateFs st.fs (done ++ [c]) (some .dir) }
        (done ++ [c]) rest
    | some .dir => createDirAllGo st (done ++ [c]) rest
    | some _ => .error .alreadyExists

/-- Model of std::fs::create_dir_all from the filesystem root. -/
def createDirAll (st : FsState) (p : Path) : Except IoErrorKind FsState :=
  createDirAllGo st [] p

/-- Resolve the entry at a path, following symlinks of the final
component, with fuel standing for the OS symlink-loop bound; exhausted
fuel models an ELOOP stat error. -/
def resolveEntry (st : FsState) : Nat → Path → Option Entry
  | 0, _ => none
  | n + 1, p =>
    match st.fs p with
    | some (.symlink t) => resolveEntry st n t
    | e => e

/-- Model of std::path::Path::exists: the stat succeeds after symlink
resolution; any stat error (absence, dangling link, loop) is false. -/
def pathExistsOnDisk (st : FsState) (p : Path) : Bool :=
  (resolveEntry st 40 p).isSome

/-- The process environment as read by create_roots. -/
structure Env where
  nixStateDir : Option Path
  user : Option String
deriving DecidableEq

/-- Modelled from the spec: evidence that a store path was selected for
protection (crate::builder::RootedPath); this module reads only its
underlying filesystem path. -/
structure RootedPath where
  path : Path
deriving DecidableEq

/-- Modelled from the spec: the generic single-field named-output
container (crate::builder::OutputPath) with its one field shell_gc_root. -/
structure OutputPath (T : Type) where
  shell_gc_root : T
deriving DecidableEq

/-- A path to a gc root (struct RootPath, wrapping an AbsPathBuf). -/
structure RootPath where
  path : Path
deriving DecidableEq

/-- Model of the derived Hash instance of RootPath: it hashes exactly the
wrapped path, by whatever hash the path type supplies. -/
def RootPath.hashBy (h : Path → Nat) (r : RootPath) : Nat := h r.path

/-- Roots manipulation: the project's GC root directory and its unique
project ID. -/
structure Roots where
  gc_root_path : Path
  project_id : String
deriving DecidableEq

/-- The final path in the gc_root_path directory (fn shell_gc_root). -/
def Roots.shell_gc_root (r : Roots) : Path :=
  r.gc_root_path ++ ["shell_gc_root"]

/-- Return the filesystem paths for these roots (fn paths). -/
def Roots.paths (r : Roots) : OutputPath RootPath :=
  { shell_gc_root := RootPath.mk r.shell_gc_root }

/-- Check whether all GC roots exist (fn all_exist): stat the
shell_gc_root path on the given disk state. -/
def OutputPath.all_exist (o : OutputPath RootPath) (st : FsState) : Bool :=
  pathExistsOnDisk st o.shell_gc_root.path

/-- Error conditions encountered when adding roots (struct AddRootError):
the underlying OS error and a rendered message. -/
structure AddRootError where
  source : IoErrorKind
  msg : String
deriving DecidableEq

/-- Ignore NotFound errors, and otherwise return an error explaining a
delete on path failed (fn AddRootError::remove). -/
def AddRootError.remove (source : IoErrorKind) (p : Path) :
    Except AddRootError Unit :=
  if source = .notFound then .ok ()
  else .error { source, msg := "Failed to delete " ++ pathDisplay p }

/-- Return an error explaining what symlink failed
(fn AddRootError::symlink). -/
def AddRootError.symlink (source : IoErrorKind) (src dest : Path) :
    AddRootError :=
  { source,
    msg := "Failed to symlink " ++ pathDisplay src ++ " to " ++ pathDisplay dest }

/-- How a create_roots call can fail: a returned AddRootError, or a
process abort from an expect panic. -/
inductive Failure where
  | err (e : AddRootError) : Failure
  | panic (msg : String) : Failure
deriving DecidableEq

/-- The remove-then-classify step of create_roots:
std::fs::remove_file(p).or_else(AddRootError::remove(e, p)); absence is
success and leaves the state unchanged. -/
def tryRemove (st : FsState) (p : Path) : Except AddRootError FsState :=
  match removeFile st p with
  | .ok st' => .ok st'
  | .error e =>
    match AddRootError.remove e p with
    | .ok _ => .ok st
    | .error a => .error a

/-- The base directory of the nix state: the NIX_STATE_DIR override when
set, otherwise the fixed default /nix/var/nix/. -/
def nixStateBase (env : Env) : Path :=
  match env.nixStateDir with
  | some b => b
  | none => ["nix", "var", "nix"]

/-- The per-user gcroots directory: base, then gcroots/per-user/user. -/
def perUserDir (env : Env) (user : String) : Path :=
  nixStateBase env ++ ["gcroots", "per-user", user]

/-- The global per-user root entry for this project:
per-user directory plus the file name project_id-shell_gc_root. -/
def globalRootPath (r : Roots) (env : Env) (user : String) : Path :=
  perUserDir env user ++ [r.project_id ++ "-" ++ "shell_gc_root"]

/-- The is_dir check and conditional create_dir_all of create_roots,
wrapping a creation failure in its message. -/
def ensureDir (st : FsState) (p : Path) : Except AddRootError FsState :=
  if dirEntryAt st p then .ok st
  else
    match createDirAll st p with
    | .ok st' => .ok st'
    | .error e =>
      .error { source := e,
               msg := "Failed to recursively create directory " ++ pathDisplay p }

/-- Create roots to store paths (fn create_roots), threading the
filesystem state through each syscall in the source's order: remove the
local root, symlink it to the store path, read USER (panicking when it is
unset), ensure the per-user directory, remove the global entry, symlink
it to the local root.  Returns the state as left by the call together
with its result. -/
def Roots.create_roots (r : Roots) (env : Env) (st : FsState)
    (path : RootedPath) : FsState × Except Failure (OutputPath RootPath) :=
  match tryRemove st r.shell_gc_root with
  | .error e => (st, .error (.err e))
  | .ok st1 =>
    match symlinkFile st1 path.path r.shell_gc_root with
    | .error e =>
      (st1, .error (.err (AddRootError.symlink e path.path r.shell_gc_root)))
    | .ok st2 =>
      match env.user with
      | none => (st2, .error (.panic "env var 'USER' must be set"))
      | some user =>
        match ensureDir st2 (perUserDir env user) with
        | .error e => (st2, .error (.err e))
        | .ok st3 =>
          match tryRemove st3 (globalRootPath r env user) with
          | .error e => (st3, .error (.err e))
          | .ok st4 =>
            match symlinkFile st4 r.shell_gc_root (globalRootPath r env user) with
            | .error e =>
              (st4, .error (.err (AddRootError.symlink e r.shell_gc_root
                (globalRootPath r env user))))
            | .ok st5 =>
              (st5, .ok { shell_gc_root := RootPath.mk r.shell_gc_root })

/-! ### Concrete sample data for evaluating the model -/

/-- A sample project cache directory. -/
def sampleGcDir : Path := ["home", "u", "cache", "ab12"]

/-- A sample Roots value. -/
def sampleRoots : Roots := { gc_root_path := sampleGcDir, project_id := "ab12" }

/-- A sample store output path. -/
def sampleStore : Path := ["nix", "store", "abc-env"]

/-- A second sample store output path. -/
def sampleStoreOld : Path := ["nix", "store", "old-env"]

/-- The default per-user gcroots directory of the sample user. -/
def sampleUserDir : Path := ["nix", "var", "nix", "gcroots", "per-user", "u"]

/-- A sample filesystem: cache dir, per-user dir and store output exist. -/
def sampleFs : Path → Option Entry := fun q =>
  if q = sampleGcDir then some .dir
  else if q = sampleUserDir then some .dir
  else if q = sampleStore then some .dir
  else none

/-- A sample filesystem state with no write-denied paths. -/
def sampleSt : FsState := { fs := sampleFs, writeDenied := fun _ => false }

/-- A sample environment: no NIX_STATE_DIR override, USER set. -/
def sampleEnv : Env := { nixStateDir := none, user := some "u" }

/-- An environment in which USER is unset. -/
def noUserEnv : Env := { nixStateDir := none, user := none }

/-- A sample rooted path handed over by the builder. -/
def samplePath : RootedPath := { path := sampleStore }

/-- A filesystem in which a forward root to an old output is registered. -/
def prevFs : Path → Option Entry := fun q =>
  if q = sampleGcDir then some .dir
  else if q = sampleRoots.shell_gc_root then some (.symlink sampleStoreOld)
  else if q = sampleUserDir then some .dir
  else none

/-- The corresponding state. -/
def prevSt : FsState := { fs := prevFs, writeDenied := fun _ => false }

/-- A filesystem holding only a forward root whose parent directory is
missing. -/
def orphanFs : Path → Option Entry := fun q =>
  if q = sampleRoots.shell_gc_root then some (.symlink sampleStoreOld)
  else none

/-- The corresponding state. -/
def orphanSt : FsState := { fs := orphanFs, writeDenied := fun _ => false }

/-- A filesystem state where the local root path holds a directory, so
its removal fails. -/
def dirLocalSt : FsState :=
  { fs := fun q =>
      if q = sampleRoots.shell_gc_root then some .dir
      else if q = sampleGcDir then some .dir
      else none,
    writeDenied := fun _ => false }

/-- A sample output container for the existence check. -/
def sampleOut : OutputPath RootPath :=
  { shell_gc_root := RootPath.mk sampleRoots.shell_gc_root }

/-- A filesystem state where the local root is a dangling symlink. -/
def danglingSt : FsState :=
  { fs := fun q =>
      if q = sampleRoots.shell_gc_root then some (.symlink sampleStore)
      else none,
    writeDenied := fun _ => false }

/-- A filesystem state where the local root is a regular file. -/
def fileSt : FsState :=
  { fs := fun q =>
      if q = sampleRoots.shell_gc_root then some .file else none,
    writeDenied := fun _ => false }

instance {e a : Type} [DecidableEq e] [DecidableEq a] : DecidableEq (Except e a)
  | .ok x, .ok y => if h : x = y then .isTrue (by rw [h]) else .isFalse (by simp [h])
  | .ok _, .error _ => .isFalse (by simp)
  | .error _, .ok _ => .isFalse (by simp)
  | .error x, .error y =>
    if h : x = y then .isTrue (by rw [h]) else .isFalse (by simp [h])

/-! ### Lemmas about the filesystem primitives -/

lemma updateFs_self (m : Path → Option Entry) (p : Path) (v : Option Entry) :
    updateFs m p v p = v := by
  simp [updateFs]

lemma updateFs_other (m : Path → Option Entry) (p q : Path) (v : Option Entry)
    (h : q ≠ p) : updateFs m p v q = m q := by
  simp [updateFs, h]

lemma tryRemove_absent {st : FsState} {p : Path} (h : st.fs p = none) :
    tryRemove st p = .ok st := by
  simp [tryRemove, removeFile, h, AddRootError.remove]

lemma tryRemove_some {st : FsState} {p : Path} {e : Entry}
    (h : st.fs p = some e) (hd : e ≠ .dir) (hw : st.writeDenied p = false) :
    tryRemove st p = .ok { st with fs := updateFs st.fs p none } := by
  cases e with
  | dir => exact absurd rfl hd
  | file => simp [tryRemove, removeFile, h, hw]
  | symlink t => simp [tryRemove, removeFile, h, hw]

lemma tryRemove_ok_destruct {st st' : FsState} {p : Path}
    (h : tryRemove st p = .ok st') :
    st'.fs p = none ∧ (∀ q, q ≠ p → st'.fs q = st.fs q) ∧
      st'.writeDenied = st.writeDenied ∧ st.fs p ≠ some .dir ∧
      (st.fs p ≠ none → st.writeDenied p = false) := by
  unfold tryRemove removeFile at h
  cases hfs : st.fs p with
  | none =>
    rw [hfs] at h
    simp [AddRootError.remove] at h
    subst h
    exact ⟨hfs, fun q _ => rfl, rfl, by simp, by simp⟩
  | some e =>
    rw [hfs] at h
    cases e with
    | dir => simp [AddRootError.remove] at h
    | file =>
      by_cases hw : st.writeDenied p = true
      · simp [hw, AddRootError.remove] at h
      · simp only [Bool.not_eq_true] at hw
        simp [hw] at h
        subst h
        refine ⟨updateFs_self _ _ _, fun q hq => updateFs_other _ _ _ _ hq, rfl,
          by simp [hfs], fun _ => hw⟩
    | symlink t =>
      by_cases hw : st.writeDenied p = true
      · simp [hw, AddRootError.remove] at h
      · simp only [Bool.not_eq_true] at hw
        simp [hw] at h
        subst h
        refine ⟨updateFs_self _ _ _, fun q hq => updateFs_other _ _ _ _ hq, rfl,
          by simp [hfs], fun _ => hw⟩

lemma symlinkFile_intro {st : FsState} {t l : Path}
    (h : st.fs l = none) (hw : st.writeDenied l = false)
    (hd : dirExists st l.dropLast = true) :
    symlinkFile st t l
      = .ok { st with fs := updateFs st.fs l (some (.symlink t)) } := by
  simp [symlinkFile, h, hw, hd]

lemma symlinkFile_ok_destruct {st st' : FsState} {t l : Path}
    (h : symlinkFile st t l = .ok st') :
    st.fs l = none ∧ st.writeDenied l = false ∧
      dirExists st l.dropLast = true ∧
      st' = { st with fs := updateFs st.fs l (some (.symlink t)) } := by
  unfold symlinkFile at h
  cases hfs : st.fs l with
  | some e => rw [hfs] at h; simp at h
  | none =>
    rw [hfs] at h
    by_cases hw : st.writeDenied l = true
    · simp [hw] at h
    · simp only [Bool.not_eq_true] at hw
      by_cases hd : dirExists st l.dropLast = true
      · simp [hw, hd] at h
        exact ⟨rfl, hw, hd, h.symm⟩
      · simp only [Bool.not_eq_true] at hd
        simp [hw, hd] at h

lemma dirEntryAt_eq_true {st : FsState} {p : Path} :
    dirEntryAt st p = true ↔ st.fs p = some .dir := by
  unfold dirEntryAt
  cases h : st.fs p with
  | none => simp
  | some e => cases e <;> simp

lemma createDirAllGo_ok_destruct {rest : List String} {st st' : FsState}
    {done : Path} (h : createDirAllGo st done rest = .ok st') :
    st'.writeDenied = st.writeDenied ∧
      (rest ≠ [] → st'.fs (done ++ rest) = some .dir) ∧
      ∀ q, st'.fs q ≠ st.fs q →
        st.fs q = none ∧ st'.fs q = some .dir ∧
          ∃ k, 0 < k ∧ k ≤ rest.length ∧ q = done ++ rest.take k := by
  induction rest generalizing st done with
  | nil =>
    unfold createDirAllGo at h
    simp at h
    subst h
    exact ⟨rfl, fun hc => absurd rfl hc, fun q hq => absurd rfl hq⟩
  | cons c rest ih =>
    unfold createDirAllGo at h
    cases hfs : st.fs (done ++ [c]) with
    | none =>
      rw [hfs] at h
      simp only [] at h
      obtain ⟨ihw, iht, ihf⟩ := ih h
      have hupself :
          (updateFs st.fs (done ++ [c]) (some .dir)) (done ++ [c])
            = some Entry.dir := updateFs_self _ _ _
      refine ⟨ihw, ?_, ?_⟩
      · intro _
        by_cases hr : rest = []
        · subst hr
          unfold createDirAllGo at h
          simp at h
          subst h
          simpa using hupself
        · have := iht hr
          simpa [List.append_assoc] using this
      · intro q hq
        by_cases hqc : q = done ++ [c]
        · subst hqc
          have hval : st'.fs (done ++ [c]) = some Entry.dir := by
            by_cases hch : st'.fs (done ++ [c])
                = (updateFs st.fs (done ++ [c]) (some .dir)) (done ++ [c])
            · rw [hch, hupself]
            · have h1 : updateFs st.fs (done ++ [c]) (some Entry.dir)
                  (done ++ [c]) = none := (ihf _ hch).1
              rw [hupself] at h1
              exact absurd h1 (by simp)
          refine ⟨hfs, hval, 1, by omega, by simp, by simp⟩
        · have hup : (updateFs st.fs (done ++ [c]) (some .dir)) q = st.fs q :=
            updateFs_other _ _ _ _ hqc
          have hch : st'.fs q
              ≠ (updateFs st.fs (done ++ [c]) (some .dir)) q := by
            rw [hup]; exact hq
          obtain ⟨h1, h2, k, hk0, hkl, hkq⟩ := ihf q hch
          have h1' : updateFs st.fs (done ++ [c]) (some Entry.dir) q
              = none := h1
          rw [hup] at h1'
          refine ⟨h1', h2, k + 1, by omega, by simp; omega, ?_⟩
          simpa [List.take_succ_cons, List.append_assoc] using hkq
    | some e =>
      rw [hfs] at h
      cases e with
      | dir =>
        simp only [] at h
        obtain ⟨ihw, iht, ihf⟩ := ih h
        refine ⟨ihw, ?_, ?_⟩
        · intro _
          by_cases hr : rest = []
          · subst hr
            unfold createDirAllGo at h
            simp at h
            subst h
            simpa using hfs
          · have := iht hr
            simpa [List.append_assoc] using this
        · intro q hq
          obtain ⟨h1, h2, k, hk0, hkl, hkq⟩ := ihf q hq
          refine ⟨h1, h2, k + 1, by omega, by simp; omega, ?_⟩
          simpa [List.take_succ_cons, List.append_assoc] using hkq
      | file => simp at h
      | symlink t => simp at h

lemma ensureDir_ok_destruct {st st' : FsState} {p : Path}
    (h : ensureDir st p = .ok st') :
    st'.writeDenied = st.writeDenied ∧
      (p ≠ [] → st'.fs p = some .dir) ∧
      ∀ q, st'.fs q ≠ st.fs q →
        st.fs q = none ∧ st'.fs q = some .dir ∧ ∃ k, 0 < k ∧ q = p.take k := by
  unfold ensureDir at h
  by_cases hd : dirEntryAt st p = true
  · simp [hd] at h
    subst h
    exact ⟨rfl, fun _ => dirEntryAt_eq_true.mp hd, fun q hq => absurd rfl hq⟩
  · simp only [Bool.not_eq_true] at hd
    rw [hd] at h
    simp only [Bool.false_eq_true, if_false] at h
    cases hc : createDirAll st p with
    | error e => rw [hc] at h; simp at h
    | ok stc =>
      rw [hc] at h
      simp at h
      subst h
      obtain ⟨hw, ht, hf⟩ := createDirAllGo_ok_destruct hc
      refine ⟨hw, fun hp => by simpa using ht hp, ?_⟩
      intro q hq
      obtain ⟨h1, h2, k, hk0, _, hkq⟩ := hf q hq
      exact ⟨h1, h2, k, hk0, by simpa using hkq⟩

lemma ensureDir_dir {st : FsState} {p : Path} (h : st.fs p = some .dir) :
    ensureDir st p = .ok st := by
  simp [ensureDir, dirEntryAt_eq_true.mpr h]

/-! ### Path disequalities -/

lemma global_name_ne (s : String) :
    s ++ "-" ++ "shell_gc_root" ≠ "shell_gc_root" := by
  intro h
  have hlen := congrArg String.length h
  rw [String.length_append, String.length_append] at hlen
  have h1 : ("-").length = 1 := by decide
  have h13 : ("shell_gc_root").length = 13 := by decide
  rw [h1, h13] at hlen
  omega

lemma shell_gc_root_ne_globalRootPath (r : Roots) (env : Env) (u : String) :
    r.shell_gc_root ≠ globalRootPath r env u := by
  intro h
  have hl := congrArg List.getLast? h
  rw [Roots.shell_gc_root, globalRootPath, List.getLast?_concat,
    List.getLast?_concat] at hl
  exact global_name_ne r.project_id (Option.some_injective _ hl.symm)

lemma perUserDir_ne_nil (env : Env) (u : String) : perUserDir env u ≠ [] := by
  simp [perUserDir]

lemma perUserDir_ne_globalRootPath (r : Roots) (env : Env) (u : String) :
    perUserDir env u ≠ globalRootPath r env u := by
  intro h
  have := congrArg List.length h
  rw [globalRootPath, List.length_append] at this
  simp at this

lemma gc_root_path_ne_shell_gc_root (r : Roots) :
    r.gc_root_path ≠ r.shell_gc_root := by
  intro h
  have := congrArg List.length h
  rw [Roots.shell_gc_root, List.length_append] at this
  simp at this

lemma shell_gc_root_dropLast (r : Roots) :
    (r.shell_gc_root).dropLast = r.gc_root_path := by
  rw [Roots.shell_gc_root]
  exact List.dropLast_concat

lemma globalRootPath_dropLast (r : Roots) (env : Env) (u : String) :
    (globalRootPath r env u).dropLast = perUserDir env u := by
  rw [globalRootPath]
  exact List.dropLast_concat

/-! ### Inversion of a successful create_roots call -/

lemma create_roots_ok_destruct {r : Roots} {env : Env} {st st' : FsState}
    {p : RootedPath} {out : OutputPath RootPath}
    (h : Roots.create_roots r env st p = (st', .ok out)) :
    ∃ user st1 st2 st3 st4,
      env.user = some user ∧
      tryRemove st r.shell_gc_root = .ok st1 ∧
      symlinkFile st1 p.path r.shell_gc_root = .ok st2 ∧
      ensureDir st2 (perUserDir env user) = .ok st3 ∧
      tryRemove st3 (globalRootPath r env user) = .ok st4 ∧
      symlinkFile st4 r.shell_gc_root (globalRootPath r env user) = .ok st' ∧
      out = { shell_gc_root := RootPath.mk r.shell_gc_root } := by
  unfold Roots.create_roots at h
  cases h1 : tryRemove st r.shell_gc_root with
  | error e => rw [h1] at h; simp at h
  | ok st1 =>
    rw [h1] at h
    dsimp only at h
    cases h2 : symlinkFile st1 p.path r.shell_gc_root with
    | error e => rw [h2] at h; simp at h
    | ok st2 =>
      rw [h2] at h
      dsimp only at h
      cases henv : env.user with
      | none => rw [henv] at h; simp at h
      | some user =>
        rw [henv] at h
        dsimp only at h
        cases h3 : ensureDir st2 (perUserDir env user) with
        | error e => rw [h3] at h; simp at h
        | ok st3 =>
          rw [h3] at h
          dsimp only at h
          cases h4 : tryRemove st3 (globalRootPath r env user) with
          | error e => rw [h4] at h; simp at h
          | ok st4 =>
            rw [h4] at h
            dsimp only at h
            cases h5 : symlinkFile st4 r.shell_gc_root
                (globalRootPath r env user) with
            | error e => rw [h5] at h; simp at h
            | ok st5 =>
              rw [h5] at h
              dsimp only at h
              simp at h
              exact ⟨user, st1, st2, st3, st4, rfl, rfl, h2, h3, h4,
                h.1 ▸ h5, h.2.symm⟩

/-- The collected facts about the state a successful create_roots call
leaves behind. -/
lemma create_roots_ok_spec {r : Roots} {env : Env} {st st' : FsState}
    {p : RootedPath} {out : OutputPath RootPath}
    (h : Roots.create_roots r env st p = (st', .ok out)) :
    ∃ user, env.user = some user ∧
      st'.fs r.shell_gc_root = some (.symlink p.path) ∧
      st'.fs (globalRootPath r env user) = some (.symlink r.shell_gc_root) ∧
      st'.fs (perUserDir env user) = some .dir ∧
      st'.writeDenied = st.writeDenied ∧
      st.writeDenied r.shell_gc_root = false ∧
      st.writeDenied (globalRootPath r env user) = false ∧
      (r.gc_root_path = [] ∨ st'.fs r.gc_root_path = some .dir) ∧
      out = { shell_gc_root := RootPath.mk r.shell_gc_root } := by
  obtain ⟨u, st1, st2, st3, st4, henv, h1, h2, h3, h4, h5, hout⟩ :=
    create_roots_ok_destruct h
  obtain ⟨h1none, h1frame, h1wd, h1nd, h1perm⟩ := tryRemove_ok_destruct h1
  obtain ⟨h2none, h2wd, h2dir, h2st⟩ := symlinkFile_ok_destruct h2
  obtain ⟨h3wd, h3target, h3frame⟩ := ensureDir_ok_destruct h3
  obtain ⟨h4none, h4frame, h4wd, h4nd, h4perm⟩ := tryRemove_ok_destruct h4
  obtain ⟨h5none, h5wd, h5dir, h5st⟩ := symlinkFile_ok_destruct h5
  have hLG : r.shell_gc_root ≠ globalRootPath r env u :=
    shell_gc_root_ne_globalRootPath r env u
  have hst2L : st2.fs r.shell_gc_root = some (.symlink p.path) := by
    rw [h2st]; exact updateFs_self _ _ _
  have hst3L : st3.fs r.shell_gc_root = some (.symlink p.path) := by
    by_cases hch : st3.fs r.shell_gc_root = st2.fs r.shell_gc_root
    · rw [hch]; exact hst2L
    · have := (h3frame _ hch).1
      rw [hst2L] at this
      exact absurd this (by simp)
  have hst4L : st4.fs r.shell_gc_root = some (.symlink p.path) := by
    rw [h4frame _ hLG]; exact hst3L
  have hstL : st'.fs r.shell_gc_root = some (.symlink p.path) := by
    rw [h5st]
    dsimp only
    rw [updateFs_other _ _ _ _ hLG]
    exact hst4L
  have hstG : st'.fs (globalRootPath r env u)
      = some (.symlink r.shell_gc_root) := by
    rw [h5st]; exact updateFs_self _ _ _
  have hDG : perUserDir env u ≠ globalRootPath r env u :=
    perUserDir_ne_globalRootPath r env u
  have hst3D : st3.fs (perUserDir env u) = some .dir :=
    h3target (perUserDir_ne_nil env u)
  have hstD : st'.fs (perUserDir env u) = some .dir := by
    rw [h5st]
    dsimp only
    rw [updateFs_other _ _ _ _ hDG, h4frame _ hDG]
    exact hst3D
  have h2wd' : st2.writeDenied = st.writeDenied := by
    rw [h2st]; exact h1wd
  have hwd : st'.writeDenied = st.writeDenied := by
    rw [h5st]
    show st4.writeDenied = st.writeDenied
    rw [h4wd, h3wd, h2wd']
  have hwdL : st.writeDenied r.shell_gc_root = false := by
    rw [← h1wd]; exact h2wd
  have hwdG : st.writeDenied (globalRootPath r env u) = false := by
    rw [← h2wd', ← h3wd, ← h4wd]; exact h5wd
  have hgcp : r.gc_root_path = [] ∨ st'.fs r.gc_root_path = some .dir := by
    rw [shell_gc_root_dropLast] at h2dir
    unfold dirExists at h2dir
    by_cases hnil : r.gc_root_path = []
    · exact Or.inl hnil
    · refine Or.inr ?_
      have hde : dirEntryAt st1 r.gc_root_path = true := by
        rcases Bool.or_eq_true_iff.mp h2dir with hl | hr
        · exact absurd (List.isEmpty_iff.mp hl) hnil
        · exact hr
      have hst1 : st1.fs r.gc_root_path = some .dir := dirEntryAt_eq_true.mp hde
      have hgL : r.gc_root_path ≠ r.shell_gc_root :=
        gc_root_path_ne_shell_gc_root r
      have hst2' : st2.fs r.gc_root_path = some .dir := by
        rw [h2st]
        dsimp only
        rw [updateFs_other _ _ _ _ hgL]
        exact hst1
      have hst3' : st3.fs r.gc_root_path = some .dir := by
        by_cases hch : st3.fs r.gc_root_path = st2.fs r.gc_root_path
        · rw [hch]; exact hst2'
        · have := (h3frame _ hch).1
          rw [hst2'] at this
          exact absurd this (by simp)
      have hgG : r.gc_root_path ≠ globalRootPath r env u := by
        intro hc
        rw [hc] at hst3'
        exact h4nd hst3'
      rw [h5st]
      dsimp only
      rw [updateFs_other _ _ _ _ hgG, h4frame _ hgG]
      exact hst3'
  exact ⟨u, henv, hstL, hstG, hstD, hwd, hwdL, hwdG, hgcp, hout⟩

/-- Frame property of create_roots, for every outcome: the write-denied
map is untouched, and the only path-to-entry changes are at the local
root, at the global per-user entry, or directory creations along the
per-user directory. -/
lemma create_roots_frame {r : Roots} {env : Env} {st st' : FsState}
    {p : RootedPath} {res : Except Failure (OutputPath RootPath)}
    (h : Roots.create_roots r env st p = (st', res)) :
    st'.writeDenied = st.writeDenied ∧
      ∀ q, st'.fs q ≠ st.fs q →
        q = r.shell_gc_root ∨
        ∃ u, env.user = some u ∧
          (q = globalRootPath r env u ∨
           (st.fs q = none ∧ st'.fs q = some .dir ∧
             ∃ k, 0 < k ∧ q = (perUserDir env u).take k)) := by
  unfold Roots.create_roots at h
  cases h1 : tryRemove st r.shell_gc_root with
  | error e =>
    rw [h1] at h
    dsimp only at h
    obtain ⟨rfl, -⟩ : st = st' ∧ _ := Prod.mk.injEq .. ▸ h
    exact ⟨rfl, fun q hq => absurd rfl hq⟩
  | ok st1 =>
    rw [h1] at h
    dsimp only at h
    obtain ⟨h1none, h1frame, h1wd, -, -⟩ := tryRemove_ok_destruct h1
    cases h2 : symlinkFile st1 p.path r.shell_gc_root with
    | error e =>
      rw [h2] at h
      dsimp only at h
      obtain ⟨rfl, -⟩ : st1 = st' ∧ _ := Prod.mk.injEq .. ▸ h
      refine ⟨h1wd, fun q hq => ?_⟩
      by_cases hL : q = r.shell_gc_root
      · exact Or.inl hL
      · exact absurd (h1frame q hL) hq
    | ok st2 =>
      rw [h2] at h
      dsimp only at h
      obtain ⟨-, -, -, h2st⟩ := symlinkFile_ok_destruct h2
      have h2wd : st2.writeDenied = st.writeDenied := by
        rw [h2st]; exact h1wd
      have h2frame : ∀ q, q ≠ r.shell_gc_root → st2.fs q = st.fs q := by
        intro q hqL
        rw [h2st]
        dsimp only
        rw [updateFs_other _ _ _ _ hqL]
        exact h1frame q hqL
      cases henv : env.user with
      | none =>
        rw [henv] at h
        dsimp only at h
        obtain ⟨rfl, -⟩ : st2 = st' ∧ _ := Prod.mk.injEq .. ▸ h
        refine ⟨h2wd, fun q hq => ?_⟩
        by_cases hL : q = r.shell_gc_root
        · exact Or.inl hL
        · exact absurd (h2frame q hL) hq
      | some user =>
        rw [henv] at h
        dsimp only at h
        cases h3 : ensureDir st2 (perUserDir env user) with
        | error e =>
          rw [h3] at h
          dsimp only at h
          obtain ⟨rfl, -⟩ : st2 = st' ∧ _ := Prod.mk.injEq .. ▸ h
          refine ⟨h2wd, fun q hq => ?_⟩
          by_cases hL : q = r.shell_gc_root
          · exact Or.inl hL
          · exact absurd (h2frame q hL) hq
        | ok st3 =>
          rw [h3] at h
          dsimp only at h
          obtain ⟨h3wd, -, h3frame⟩ := ensureDir_ok_destruct h3
          have h3wd' : st3.writeDenied = st.writeDenied := by rw [h3wd, h2wd]
          have hmid : ∀ q, q ≠ r.shell_gc_root → st3.fs q ≠ st.fs q →
              st.fs q = none ∧ st3.fs q = some Entry.dir ∧
                ∃ k, 0 < k ∧ q = (perUserDir env user).take k := by
            intro q hqL hq
            have hch : st3.fs q ≠ st2.fs q := by
              rw [h2frame q hqL]; exact hq
            obtain ⟨hnone, hdir, hk⟩ := h3frame q hch
            rw [h2frame q hqL] at hnone
            exact ⟨hnone, hdir, hk⟩
          cases h4 : tryRemove st3 (globalRootPath r env user) with
          | error e =>
            rw [h4] at h
            dsimp only at h
            obtain ⟨rfl, -⟩ : st3 = st' ∧ _ := Prod.mk.injEq .. ▸ h
            refine ⟨h3wd', fun q hq => ?_⟩
            by_cases hL : q = r.shell_gc_root
            · exact Or.inl hL
            · exact Or.inr ⟨user, rfl, Or.inr (hmid q hL hq)⟩
          | ok st4 =>
            rw [h4] at h
            dsimp only at h
            obtain ⟨-, h4frame, h4wd, -, -⟩ := tryRemove_ok_destruct h4
            have h4wd' : st4.writeDenied = st.writeDenied := by
              rw [h4wd, h3wd']
            cases h5 : symlinkFile st4 r.shell_gc_root
                (globalRootPath r env user) with
            | error e =>
              rw [h5] at h
              dsimp only at h
              obtain ⟨rfl, -⟩ : st4 = st' ∧ _ := Prod.mk.injEq .. ▸ h
              refine ⟨h4wd', fun q hq => ?_⟩
              by_cases hL : q = r.shell_gc_root
              · exact Or.inl hL
              · by_cases hG : q = globalRootPath r env user
                · exact Or.inr ⟨user, rfl, Or.inl hG⟩
                · rw [h4frame q hG] at hq
                  exact Or.inr ⟨user, rfl, Or.inr
                    ((h4frame q hG) ▸ hmid q hL hq)⟩
            | ok st5 =>
              rw [h5] at h
              dsimp only at h
              obtain ⟨-, -, -, h5st⟩ := symlinkFile_ok_destruct h5
              obtain ⟨rfl, -⟩ : st5 = st' ∧ _ := Prod.mk.injEq .. ▸ h
              have h5wd' : st5.writeDenied = st.writeDenied := by
                rw [h5st]; exact h4wd'
              refine ⟨h5wd', fun q hq => ?_⟩
              by_cases hL : q = r.shell_gc_root
              · exact Or.inl hL
              · by_cases hG : q = globalRootPath r env user
                · exact Or.inr ⟨user, rfl, Or.inl hG⟩
                · have h5frame : st5.fs q = st4.fs q := by
                    rw [h5st]
                    dsimp only
                    rw [updateFs_other _ _ _ _ hG]
                  rw [h5frame, h4frame q hG] at hq
                  exact Or.inr ⟨user, rfl, Or.inr
                    ((h5frame.trans (h4frame q hG)) ▸ hmid q hL hq)⟩

/-- Re-running create_roots on the state a successful call left behind
succeeds again, with the same returned value and the same final state. -/
lemma create_roots_idem {r : Roots} {env : Env} {st st' : FsState}
    {p : RootedPath} {out : OutputPath RootPath}
    (h : Roots.create_roots r env st p = (st', .ok out)) :
    Roots.create_roots r env st' p = (st', .ok out) := by
  obtain ⟨u, henv, hL, hG, hD, hwd, hwdL, hwdG, hgcp, hout⟩ :=
    create_roots_ok_spec h
  have hLG := shell_gc_root_ne_globalRootPath r env u
  have hDG := perUserDir_ne_globalRootPath r env u
  have hgLne := gc_root_path_ne_shell_gc_root r
  have e1 : tryRemove st' r.shell_gc_root
      = .ok { st' with fs := updateFs st'.fs r.shell_gc_root none } :=
    tryRemove_some hL (by simp) (by rw [hwd]; exact hwdL)
  have e2 : symlinkFile
        { st' with fs := updateFs st'.fs r.shell_gc_root none }
        p.path r.shell_gc_root
      = .ok { st' with fs := (updateFs (updateFs st'.fs r.shell_gc_root none)
          r.shell_gc_root (some (.symlink p.path))) } := by
    apply symlinkFile_intro
    · exact updateFs_self _ _ _
    · show st'.writeDenied r.shell_gc_root = false
      rw [hwd]; exact hwdL
    · show dirExists _ (r.shell_gc_root).dropLast = true
      rw [shell_gc_root_dropLast]
      rcases hgcp with hnil | hdir
      · unfold dirExists
        simp [hnil]
      · unfold dirExists dirEntryAt
        dsimp only
        rw [updateFs_other _ _ _ _ hgLne, hdir]
        simp
  have hstB : ({ st' with fs := (updateFs (updateFs st'.fs r.shell_gc_root none)
      r.shell_gc_root (some (.symlink p.path))) } : FsState) = st' := by
    cases st' with
    | mk f w =>
      simp only [FsState.mk.injEq]
      refine ⟨funext fun q => ?_, trivial⟩
      by_cases hq : q = r.shell_gc_root
      · subst hq
        rw [updateFs_self]
        exact hL.symm
      · rw [updateFs_other _ _ _ _ hq, updateFs_other _ _ _ _ hq]
  have e4 : ensureDir st' (perUserDir env u) = .ok st' := ensureDir_dir hD
  have e5 : tryRemove st' (globalRootPath r env u)
      = .ok { st' with fs := updateFs st'.fs (globalRootPath r env u) none } :=
    tryRemove_some hG (by simp) (by rw [hwd]; exact hwdG)
  have e6 : symlinkFile
        { st' with fs := updateFs st'.fs (globalRootPath r env u) none }
        r.shell_gc_root (globalRootPath r env u)
      = .ok { st' with fs :=
          (updateFs (updateFs st'.fs (globalRootPath r env u) none)
            (globalRootPath r env u) (some (.symlink r.shell_gc_root))) } := by
    apply symlinkFile_intro
    · exact updateFs_self _ _ _
    · show st'.writeDenied (globalRootPath r env u) = false
      rw [hwd]; exact hwdG
    · show dirExists _ (globalRootPath r env u).dropLast = true
      rw [globalRootPath_dropLast]
      unfold dirExists dirEntryAt
      dsimp only
      rw [updateFs_other _ _ _ _ hDG, hD]
      simp
  have hstD : ({ st' with fs :=
      (updateFs (updateFs st'.fs (globalRootPath r env u) none)
        (globalRootPath r env u)
        (some (.symlink r.shell_gc_root))) } : FsState) = st' := by
    cases st' with
    | mk f w =>
      simp only [FsState.mk.injEq]
      refine ⟨funext fun q => ?_, trivial⟩
      by_cases hq : q = globalRootPath r env u
      · subst hq
        rw [updateFs_self]
        exact hG.symm
      · rw [updateFs_other _ _ _ _ hq, updateFs_other _ _ _ _ hq]
  unfold Roots.create_roots
  rw [e1]
  dsimp only
  rw [e2, hstB, henv]
  dsimp only
  rw [e4]
  dsimp only
  rw [e5]
  dsimp only
  rw [e6, hstD]
  dsimp only
  rw [hout]

/-- When USER is unavailable, the call fails and touches nothing but the
local root path. -/
lemma create_roots_no_user {r : Roots} {env : Env} {st st' : FsState}
    {p : RootedPath} {res : Except Failure (OutputPath RootPath)}
    (hu : env.user = none) (h : Roots.create_roots r env st p = (st', res)) :
    (∃ f, res = .error f) ∧ st'.writeDenied = st.writeDenied ∧
      ∀ q, q ≠ r.shell_gc_root → st'.fs q = st.fs q := by
  obtain ⟨hwd, hframe⟩ := create_roots_frame h
  refine ⟨?_, hwd, ?_⟩
  · cases hres : res with
    | error f => exact ⟨f, rfl⟩
    | ok out =>
      rw [hres] at h
      obtain ⟨u', hu', -⟩ := create_roots_ok_spec h
      rw [hu] at hu'
      cases hu'
  · intro q hq
    by_contra hne
    rcases hframe q hne with hL | ⟨u, hu', -⟩
    · exact hq hL
    · rw [hu] at hu'
      cases hu'

/-- A symlink call fails with a NotFound error when the link slot is free
and permitted but the parent directory is absent. -/
lemma symlinkFile_noparent {st : FsState} {t l : Path}
    (h : st.fs l = none) (hw : st.writeDenied l = false)
    (hd : dirExists st l.dropLast = false) :
    symlinkFile st t l = .error .notFound := by
  simp [symlinkFile, h, hw, hd]

/-- The filesystem left when create_roots removes an existing local root
and then fails to create the forward symlink for lack of the parent
directory. -/
lemma create_roots_forward_fail {r : Roots} {env : Env} {st : FsState}
    {p : RootedPath} {e : Entry}
    (hprev : st.fs r.shell_gc_root = some e) (hnd : e ≠ .dir)
    (hwdL : st.writeDenied r.shell_gc_root = false)
    (hpar : dirExists st r.gc_root_path = false) :
    Roots.create_roots r env st p
      = ({ st with fs := updateFs st.fs r.shell_gc_root none },
         .error (.err (AddRootError.symlink .notFound p.path
           r.shell_gc_root))) := by
  have e1 : tryRemove st r.shell_gc_root
      = .ok { st with fs := updateFs st.fs r.shell_gc_root none } :=
    tryRemove_some hprev hnd hwdL
  have hpar' : dirExists { st with fs := updateFs st.fs r.shell_gc_root none }
      (r.shell_gc_root).dropLast = false := by
    rw [shell_gc_root_dropLast]
    unfold dirExists dirEntryAt
    dsimp only
    rw [updateFs_other _ _ _ _ (gc_root_path_ne_shell_gc_root r)]
    unfold dirExists dirEntryAt at hpar
    exact hpar
  have e2 : symlinkFile { st with fs := updateFs st.fs r.shell_gc_root none }
      p.path r.shell_gc_root = .error .notFound :=
    symlinkFile_noparent (updateFs_self _ _ _) hwdL hpar'
  unfold Roots.create_roots
  rw [e1]
  dsimp only
  rw [e2]

/-- Unfolding the symlink resolver at an absent path. -/
lemma resolveEntry_succ_none {st : FsState} {q : Path} {n : Nat}
    (h : st.fs q = none) : resolveEntry st (n + 1) q = none := by
  unfold resolveEntry
  rw [h]

/-- Unfolding the symlink resolver at a regular file. -/
lemma resolveEntry_succ_file {st : FsState} {q : Path} {n : Nat}
    (h : st.fs q = some .file) : resolveEntry st (n + 1) q = some .file := by
  unfold resolveEntry
  rw [h]

/-- Unfolding the symlink resolver at a directory. -/
lemma resolveEntry_succ_dir {st : FsState} {q : Path} {n : Nat}
    (h : st.fs q = some .dir) : resolveEntry st (n + 1) q = some .dir := by
  unfold resolveEntry
  rw [h]

/-- Unfolding the symlink resolver at a symlink. -/
lemma resolveEntry_succ_symlink {st : FsState} {q t : Path} {n : Nat}
    (h : st.fs q = some (.symlink t)) :
    resolveEntry st (n + 1) q = resolveEntry st n t := by
  conv_lhs => unfold resolveEntry
  rw [h]

/-- Appending the same string on the right is injective. -/
lemma string_append_right_cancel {a b c : String} (h : a ++ c = b ++ c) :
    a = b := by
  have hd := congrArg String.data h
  rw [String.data_append, String.data_append] at hd
  exact String.ext (List.append_cancel_right hd)

/-- Global entries of distinct projects have distinct paths. -/
lemma other_project_entry_ne (r : Roots) (env : Env) (u u' : String)
    (pid : String) (hpid : pid ≠ r.project_id) :
    perUserDir env u' ++ [pid ++ "-" ++ "shell_gc_root"]
      ≠ globalRootPath r env u := by
  intro h
  rw [globalRootPath] at h
  have hl := congrArg List.getLast? h
  rw [List.getLast?_concat, List.getLast?_concat] at hl
  have hs : pid ++ "-" ++ "shell_gc_root"
      = r.project_id ++ "-" ++ "shell_gc_root" :=
    Option.some_injective _ hl
  rw [String.append_assoc, String.append_assoc] at hs
  exact hpid (string_append_right_cancel hs)

/-- Global entries of other projects are never the local root. -/
lemma other_project_entry_ne_shell (r : Roots) (env : Env) (u : String)
    (pid : String) :
    perUserDir env u ++ [pid ++ "-" ++ "shell_gc_root"]
      ≠ r.shell_gc_root := by
  intro h
  have hl := congrArg List.getLast? h
  rw [Roots.shell_gc_root, List.getLast?_concat, List.getLast?_concat] at hl
  exact global_name_ne pid (Option.some_injective _ hl)

/-- Global entries of other projects are longer than any initial segment
of the per-user directory. -/
lemma other_project_entry_ne_take (env : Env) (u u' : String)
    (pid : String) (k : Nat) :
    perUserDir env u' ++ [pid ++ "-" ++ "shell_gc_root"]
      ≠ (perUserDir env u).take k := by
  intro h
  have := congrArg List.length h
  rw [List.length_append, List.length_take] at this
  simp [perUserDir] at this
  omega

/-- Collapse the dash into the literal global file name. -/
lemma dash_append (s : String) :
    s ++ "-" ++ "shell_gc_root" = s ++ "-shell_gc_root" := by
  rw [String.append_assoc]
  have h : "-" ++ "shell_gc_root" = "-shell_gc_root" := by decide
  rw [h]

/-! ### The claims -/

/-- C1: for every Roots value and every prior filesystem state of the
local path and of the global per-user entry, a create_roots call that
returns Ok leaves the local path a symlink to the store path of the given
RootedPath and the global entry a symlink to the local path. -/
theorem c1_convergence (r : Roots) (env : Env) (st st' : FsState)
    (p : RootedPath) (out : OutputPath RootPath)
    (h : Roots.create_roots r env st p = (st', .ok out)) :
    st'.fs r.shell_gc_root = some (.symlink p.path) ∧
    ∃ u, env.user = some u ∧
      st'.fs (globalRootPath r env u) = some (.symlink r.shell_gc_root) := by
  obtain ⟨u, henv, hL, hG, -⟩ := create_roots_ok_spec h
  exact ⟨hL, u, henv, hG⟩

/-- Witness for C1: a concrete successful registration. -/
theorem c1_convergence_witness :
    (Roots.create_roots sampleRoots sampleEnv sampleSt samplePath).1.fs
        sampleRoots.shell_gc_root = some (.symlink samplePath.path) ∧
    ∃ u, sampleEnv.user = some u ∧
      (Roots.create_roots sampleRoots sampleEnv sampleSt samplePath).1.fs
          (globalRootPath sampleRoots sampleEnv u)
        = some (.symlink sampleRoots.shell_gc_root) :=
  c1_convergence sampleRoots sampleEnv sampleSt
    (Roots.create_roots sampleRoots sampleEnv sampleSt samplePath).1
    samplePath sampleOut
    (by
      have h2 : (Roots.create_roots sampleRoots sampleEnv sampleSt
          samplePath).2 = Except.ok sampleOut := by decide
      rw [← h2])

/-- C2: the global entry is created at the base directory (NIX_STATE_DIR
override when set, otherwise /nix/var/nix/) extended by
gcroots/per-user/user and the file name project_id-shell_gc_root; in
particular the entry file name is project_id-shell_gc_root. -/
theorem c2_global_path_shape (r : Roots) (env : Env) (st st' : FsState)
    (p : RootedPath) (out : OutputPath RootPath)
    (h : Roots.create_roots r env st p = (st', .ok out)) :
    ∃ u, env.user = some u ∧
      st'.fs (globalRootPath r env u) = some (.symlink r.shell_gc_root) ∧
      globalRootPath r env u
        = nixStateBase env
            ++ ["gcroots", "per-user", u, r.project_id ++ "-shell_gc_root"] ∧
      (∀ b, env.nixStateDir = some b → nixStateBase env = b) ∧
      (env.nixStateDir = none → nixStateBase env = ["nix", "var", "nix"]) ∧
      (globalRootPath r env u).getLast?
        = some (r.project_id ++ "-shell_gc_root") := by
  obtain ⟨u, henv, -, hG, -⟩ := create_roots_ok_spec h
  refine ⟨u, henv, hG, ?_, ?_, ?_, ?_⟩
  · rw [globalRootPath, perUserDir, dash_append, List.append_assoc]
    rfl
  · intro b hb
    simp [nixStateBase, hb]
  · intro hb
    simp [nixStateBase, hb]
  · rw [globalRootPath, List.getLast?_concat, dash_append]

/-- Witness for C2: the same concrete successful registration. -/
theorem c2_global_path_shape_witness :
    ∃ u, sampleEnv.user = some u ∧
      (Roots.create_roots sampleRoots sampleEnv sampleSt samplePath).1.fs
          (globalRootPath sampleRoots sampleEnv u)
        = some (.symlink sampleRoots.shell_gc_root) ∧
      globalRootPath sampleRoots sampleEnv u
        = nixStateBase sampleEnv
            ++ ["gcroots", "per-user", u,
                sampleRoots.project_id ++ "-shell_gc_root"] ∧
      (∀ b, sampleEnv.nixStateDir = some b → nixStateBase sampleEnv = b) ∧
      (sampleEnv.nixStateDir = none
        → nixStateBase sampleEnv = ["nix", "var", "nix"]) ∧
      (globalRootPath sampleRoots sampleEnv u).getLast?
        = some (sampleRoots.project_id ++ "-shell_gc_root") :=
  c2_global_path_shape sampleRoots sampleEnv sampleSt
    (Roots.create_roots sampleRoots sampleEnv sampleSt samplePath).1
    samplePath sampleOut
    (by
      have h2 : (Roots.create_roots sampleRoots sampleEnv sampleSt
          samplePath).2 = Except.ok sampleOut := by decide
      rw [← h2])

/-- C3 counterexample: with USER unavailable the call does fail, but the
local path has already been mutated before the abort, so the claim that
no filesystem mutation happens in that call is false. -/
theorem c3_counterexample :
    (Roots.create_roots sampleRoots noUserEnv prevSt samplePath).2
        = .error (.panic "env var 'USER' must be set") ∧
    (Roots.create_roots sampleRoots noUserEnv prevSt samplePath).1.fs
        sampleRoots.shell_gc_root
      ≠ prevSt.fs sampleRoots.shell_gc_root := by
  refine ⟨by decide, by decide⟩

/-- C3 amended: when USER is unavailable the call fails before touching
the global entry or anything else outside the project-local path, but the
local path itself may already have been removed and re-created. -/
theorem c3_no_user_aborts (r : Roots) (env : Env) (st st' : FsState)
    (p : RootedPath) (res : Except Failure (OutputPath RootPath))
    (hu : env.user = none) (h : Roots.create_roots r env st p = (st', res)) :
    (∃ f, res = .error f) ∧ st'.writeDenied = st.writeDenied ∧
      ∀ q, q ≠ r.shell_gc_root → st'.fs q = st.fs q :=
  create_roots_no_user hu h

/-- Witness for the amended C3. -/
theorem c3_no_user_aborts_witness :
    (∃ f, (Roots.create_roots sampleRoots noUserEnv prevSt samplePath).2
      = .error f) ∧
    (Roots.create_roots sampleRoots noUserEnv prevSt samplePath).1.writeDenied
      = prevSt.writeDenied ∧
    ∀ q, q ≠ sampleRoots.shell_gc_root →
      (Roots.create_roots sampleRoots noUserEnv prevSt samplePath).1.fs q
        = prevSt.fs q :=
  c3_no_user_aborts sampleRoots noUserEnv prevSt
    (Roots.create_roots sampleRoots noUserEnv prevSt samplePath).1
    samplePath
    (Roots.create_roots sampleRoots noUserEnv prevSt samplePath).2
    rfl rfl

/-- C4: removing an absent path is success (and the call continues with an
unchanged state); the NotFound kind is swallowed; every other removal
error is returned, carrying the path that could not be deleted; and a
failing local removal fails the whole create_roots call with exactly that
error. -/
theorem c4_removal_errors :
    (∀ (st : FsState) (q : Path), st.fs q = none → tryRemove st q = .ok st) ∧
    (∀ q : Path, AddRootError.remove .notFound q = .ok ()) ∧
    (∀ (e : IoErrorKind) (q : Path), e ≠ .notFound →
      AddRootError.remove e q
        = .error { source := e,
                   msg := "Failed to delete " ++ pathDisplay q }) ∧
    (∀ (r : Roots) (env : Env) (st : FsState) (p : RootedPath)
        (a : AddRootError), tryRemove st r.shell_gc_root = .error a →
      Roots.create_roots r env st p = (st, .error (.err a))) := by
  refine ⟨fun st q h => tryRemove_absent h, fun q => rfl, ?_, ?_⟩
  · intro e q he
    simp [AddRootError.remove, he]
  · intro r env st p a h
    unfold Roots.create_roots
    rw [h]

/-- Witness for C4: concrete removals. -/
theorem c4_removal_errors_witness :
    tryRemove sampleSt ["no", "such", "path"] = .ok sampleSt ∧
    AddRootError.remove .permissionDenied sampleGcDir
      = .error { source := .permissionDenied,
                 msg := "Failed to delete " ++ pathDisplay sampleGcDir } ∧
    Roots.create_roots sampleRoots sampleEnv dirLocalSt samplePath
      = (dirLocalSt, .error (.err
          { source := .isADirectory,
            msg := "Failed to delete "
              ++ pathDisplay sampleRoots.shell_gc_root })) :=
  ⟨c4_removal_errors.1 sampleSt ["no", "such", "path"] (by decide),
   c4_removal_errors.2.2.1 .permissionDenied sampleGcDir (by decide),
   c4_removal_errors.2.2.2 sampleRoots sampleEnv dirLocalSt samplePath
     { source := .isADirectory,
       msg := "Failed to delete " ++ pathDisplay sampleRoots.shell_gc_root }
     rfl⟩

/-- C5: a second create_roots call with the same target, run on the state
a successful call left behind, also succeeds, returns the identical
OutputPath value, and leaves the identical filesystem state (hence both
links point at identical targets). -/
theorem c5_idempotence (r : Roots) (env : Env) (st st' : FsState)
    (p : RootedPath) (out : OutputPath RootPath)
    (h : Roots.create_roots r env st p = (st', .ok out)) :
    Roots.create_roots r env st' p = (st', .ok out) :=
  create_roots_idem h

/-- Witness for C5: the concrete registration run twice. -/
theorem c5_idempotence_witness :
    Roots.create_roots sampleRoots sampleEnv
        (Roots.create_roots sampleRoots sampleEnv sampleSt samplePath).1
        samplePath
      = ((Roots.create_roots sampleRoots sampleEnv sampleSt samplePath).1,
         .ok sampleOut) :=
  c5_idempotence sampleRoots sampleEnv sampleSt
    (Roots.create_roots sampleRoots sampleEnv sampleSt samplePath).1
    samplePath sampleOut
    (by
      have h2 : (Roots.create_roots sampleRoots sampleEnv sampleSt
          samplePath).2 = Except.ok sampleOut := by decide
      rw [← h2])

/-- C6: paths is pure and total, returning the wrapped project-local root
path, and the Ok result of create_roots is exactly that same value. -/
theorem c6_paths_agree :
    (∀ r : Roots, Roots.paths r
        = { shell_gc_root :=
              RootPath.mk (r.gc_root_path ++ ["shell_gc_root"]) }) ∧
    (∀ (r : Roots) (env : Env) (st st' : FsState) (p : RootedPath)
        (out : OutputPath RootPath),
      Roots.create_roots r env st p = (st', .ok out) →
        out = Roots.paths r) := by
  refine ⟨fun r => rfl, ?_⟩
  intro r env st st' p out h
  obtain ⟨u, -, -, -, -, -, -, -, -, hout⟩ := create_roots_ok_spec h
  exact hout

/-- Witness for C6: paths on the sample project and the result of the
concrete registration. -/
theorem c6_paths_agree_witness :
    Roots.paths sampleRoots
      = { shell_gc_root :=
            RootPath.mk (sampleRoots.gc_root_path ++ ["shell_gc_root"]) } ∧
    sampleOut = Roots.paths sampleRoots :=
  ⟨c6_paths_agree.1 sampleRoots,
   c6_paths_agree.2 sampleRoots sampleEnv sampleSt
     (Roots.create_roots sampleRoots sampleEnv sampleSt samplePath).1
     samplePath sampleOut
     (by
       have h2 : (Roots.create_roots sampleRoots sampleEnv sampleSt
           samplePath).2 = Except.ok sampleOut := by decide
       rw [← h2])⟩

/-- C7: all_exist is the stat of the shell_gc_root path after symlink
resolution: false at an absent entry, true at a file or directory, and
false at a dangling symlink; being a total Bool function it never fails
and performs no mutation. -/
theorem c7_all_exist (st : FsState) (o : OutputPath RootPath) :
    (OutputPath.all_exist o st = pathExistsOnDisk st o.shell_gc_root.path) ∧
    (st.fs o.shell_gc_root.path = none →
      OutputPath.all_exist o st = false) ∧
    (st.fs o.shell_gc_root.path = some .file →
      OutputPath.all_exist o st = true) ∧
    (st.fs o.shell_gc_root.path = some .dir →
      OutputPath.all_exist o st = true) ∧
    (∀ t, st.fs o.shell_gc_root.path = some (.symlink t) → st.fs t = none →
      OutputPath.all_exist o st = false) := by
  refine ⟨rfl, ?_, ?_, ?_, ?_⟩
  · intro h
    show (resolveEntry st (39 + 1) o.shell_gc_root.path).isSome = false
    rw [resolveEntry_succ_none h]
    rfl
  · intro h
    show (resolveEntry st (39 + 1) o.shell_gc_root.path).isSome = true
    rw [resolveEntry_succ_file h]
    rfl
  · intro h
    show (resolveEntry st (39 + 1) o.shell_gc_root.path).isSome = true
    rw [resolveEntry_succ_dir h]
    rfl
  · intro t h ht
    show (resolveEntry st (39 + 1) o.shell_gc_root.path).isSome = false
    rw [resolveEntry_succ_symlink h]
    show (resolveEntry st (38 + 1) t).isSome = false
    rw [resolveEntry_succ_none ht]
    rfl

/-- Witness for C7: a regular file reports true, a dangling symlink
reports false. -/
theorem c7_all_exist_witness :
    OutputPath.all_exist sampleOut fileSt = true ∧
    OutputPath.all_exist sampleOut danglingSt = false :=
  ⟨(c7_all_exist fileSt sampleOut).2.2.1 (by decide),
   (c7_all_exist danglingSt sampleOut).2.2.2.2 sampleStore
     (by decide) (by decide)⟩

/-- C8: a create_roots call never touches the write-permission state, and
mutates at most the project-local path, the project's own global entry,
and missing ancestors of the per-user directory (created as directories);
in particular the global entry of every other project is unchanged. -/
theorem c8_frame_property (r : Roots) (env : Env) (st st' : FsState)
    (p : RootedPath) (res : Except Failure (OutputPath RootPath))
    (h : Roots.create_roots r env st p = (st', res)) :
    st'.writeDenied = st.writeDenied ∧
    (∀ q, st'.fs q ≠ st.fs q →
      q = r.shell_gc_root ∨
      ∃ u, env.user = some u ∧
        (q = globalRootPath r env u ∨
         (st.fs q = none ∧ st'.fs q = some .dir ∧
           ∃ k, 0 < k ∧ q = (perUserDir env u).take k))) ∧
    (∀ u' pid, pid ≠ r.project_id →
      st'.fs (perUserDir env u' ++ [pid ++ "-" ++ "shell_gc_root"])
        = st.fs (perUserDir env u' ++ [pid ++ "-" ++ "shell_gc_root"])) := by
  obtain ⟨hwd, hframe⟩ := create_roots_frame h
  refine ⟨hwd, hframe, ?_⟩
  intro u' pid hpid
  by_contra hne
  rcases hframe _ hne with hL | ⟨u, -, hG | ⟨-, -, k, -, hk⟩⟩
  · exact other_project_entry_ne_shell r env u' pid hL
  · exact other_project_entry_ne r env u u' pid hpid hG
  · exact other_project_entry_ne_take env u u' pid k hk

/-- Witness for C8: the concrete registration leaves permissions and a
foreign project's entry untouched. -/
theorem c8_frame_property_witness :
    (Roots.create_roots sampleRoots sampleEnv sampleSt
        samplePath).1.writeDenied = sampleSt.writeDenied ∧
    (Roots.create_roots sampleRoots sampleEnv sampleSt samplePath).1.fs
        (perUserDir sampleEnv "u" ++ ["zz99" ++ "-" ++ "shell_gc_root"])
      = sampleSt.fs
        (perUserDir sampleEnv "u" ++ ["zz99" ++ "-" ++ "shell_gc_root"]) :=
  ⟨(c8_frame_property sampleRoots sampleEnv sampleSt
      (Roots.create_roots sampleRoots sampleEnv sampleSt samplePath).1
      samplePath
      (Roots.create_roots sampleRoots sampleEnv sampleSt samplePath).2
      rfl).1,
   (c8_frame_property sampleRoots sampleEnv sampleSt
      (Roots.create_roots sampleRoots sampleEnv sampleSt samplePath).1
      samplePath
      (Roots.create_roots sampleRoots sampleEnv sampleSt samplePath).2
      rfl).2.2 "u" "zz99" (by decide)⟩

/-- C9: RootPath values are equal exactly when the wrapped paths are, and
hashing (which delegates to the wrapped path) agrees on equal values. -/
theorem c9_rootpath_equality :
    (∀ a b : Path, RootPath.mk a = RootPath.mk b ↔ a = b) ∧
    (∀ x y : RootPath, x = y ↔ x.path = y.path) ∧
    (∀ (h : Path → Nat) (a : Path),
      RootPath.hashBy h (RootPath.mk a) = h a) ∧
    (∀ (h : Path → Nat) (x y : RootPath), x = y →
      RootPath.hashBy h x = RootPath.hashBy h y) := by
  refine ⟨?_, ?_, fun _ _ => rfl, fun h x y hxy => by rw [hxy]⟩
  · intro a b
    simp
  · intro x y
    cases x
    cases y
    simp

/-- Witness for C9: concrete equality and hash instances. -/
theorem c9_rootpath_equality_witness :
    (RootPath.mk ["a"] = RootPath.mk ["b"] ↔ (["a"] : Path) = ["b"]) ∧
    RootPath.hashBy List.length (RootPath.mk ["a"]) = List.length ["a"] ∧
    RootPath.hashBy List.length (RootPath.mk ["a"])
      = RootPath.hashBy List.length (RootPath.mk ["a"]) :=
  ⟨c9_rootpath_equality.1 ["a"] ["b"],
   c9_rootpath_equality.2.2.1 List.length ["a"],
   c9_rootpath_equality.2.2.2 List.length (RootPath.mk ["a"])
     (RootPath.mk ["a"]) rfl⟩

/-- C10: when the removal of an existing local root succeeds but the
forward symlink creation then fails, the call returns an error and the
local path is left absent — the old root is not restored. -/
theorem c10_no_rollback (r : Roots) (env : Env) (st : FsState)
    (p : RootedPath) (prev : Path)
    (hprev : st.fs r.shell_gc_root = some (.symlink prev))
    (hwdL : st.writeDenied r.shell_gc_root = false)
    (hpar : dirExists st r.gc_root_path = false) :
    (Roots.create_roots r env st p).2
        = .error (.err (AddRootError.symlink .notFound p.path
            r.shell_gc_root)) ∧
    (Roots.create_roots r env st p).1.fs r.shell_gc_root = none := by
  have h := @create_roots_forward_fail r env st p (.symlink prev)
    hprev (by simp) hwdL hpar
  rw [h]
  exact ⟨rfl, updateFs_self _ _ _⟩

/-- Witness for C10: a registered root whose parent directory is gone. -/
theorem c10_no_rollback_witness :
    (Roots.create_roots sampleRoots sampleEnv orphanSt samplePath).2
        = .error (.err (AddRootError.symlink .notFound samplePath.path
            sampleRoots.shell_gc_root)) ∧
    (Roots.create_roots sampleRoots sampleEnv orphanSt samplePath).1.fs
        sampleRoots.shell_gc_root = none :=
  c10_no_rollback sampleRoots sampleEnv orphanSt samplePath sampleStoreOld
    (by decide) (by decide) (by decide)

end LorriRoots
